import Mathlib

/-!
Verification of the relative-addressing core of `xcm-builder/src/location_conversion.rs`:
the location data model, the address-conversion schemes, the ancestry-based
location inverter and the reanchor operation.

Machine integers are modelled as `Nat` (all relevant source values are small
unsigned integers; widths are noted where they matter), byte strings as
`List Nat`, and Rust `Result<_, E>` as `Except E _`.
-/

/-- Modelled from the spec: the network identifier tag attached to account
junctions — a wildcard ("any network") or a specific named/standard network
(the `NetworkId` enum of the xcm crate, which is not under src/). -/
inductive NetworkId where
  | Any : NetworkId
  | Named : List Nat → NetworkId
  | Polkadot : NetworkId
  | Kusama : NetworkId
deriving DecidableEq, Repr

/-- Modelled from the spec: one descent step of a location descriptor
(the `Junction` enum of the xcm crate, which is not under src/): a numeric
sub-system identifier (32-bit), a 32-byte account reference tagged with a
network, a 20-byte account reference tagged with a network, an 8-bit pallet
instance, a 128-bit general index, an opaque general key, the OnlyChild
structural placeholder, and a group/plurality marker. -/
inductive Junction where
  | Parachain : Nat → Junction
  | AccountId32 : NetworkId → List Nat → Junction
  | AccountKey20 : NetworkId → List Nat → Junction
  | PalletInstance : Nat → Junction
  | GeneralIndex : Nat → Junction
  | GeneralKey : List Nat → Junction
  | OnlyChild : Junction
  | Plurality : Nat → Nat → Junction
deriving DecidableEq, Repr

/-- Modelled from the spec: the location descriptor — a pair of ascend-count
(`parents`, a small unsigned integer) and descend-sequence (`interior`, an
ordered junction sequence capped at 8 entries; the cap is enforced by the
operations below, as in the xcm crate's `Junctions` type, not under src/). -/
structure MultiLocation where
  parents : Nat
  interior : List Junction
deriving DecidableEq, Repr

/-- Modelled from the spec: `push_back` on a descend-sequence — appends a
junction, failing with Overflow if the sequence already holds 8 junctions
(the xcm crate's `Junctions::pushed_with`, not under src/). -/
def pushed_with (js : List Junction) (j : Junction) : Except Unit (List Junction) :=
  if js.length < 8 then Except.ok (js ++ [j]) else Except.error ()

/-- Modelled from the spec: `take_first_interior` — removes and returns the
first junction of the descend-sequence, or signals none if it is empty; a
mutating operation on a caller-owned working copy, rendered here as returning
the taken junction together with the updated location (the xcm crate's
`MultiLocation::take_first_interior`, not under src/). -/
def take_first_interior (l : MultiLocation) : Option Junction × MultiLocation :=
  match l.interior with
  | [] => (none, l)
  | j :: rest => (some j, ⟨l.parents, rest⟩)

/-- The loop body of `LocationInverter::invert_location`
(location_conversion.rs lines 188-192): repeat `n` times, taking the first
junction of the working ancestry copy (OnlyChild when exhausted) and
appending it to the accumulated output, propagating the Overflow error of
`pushed_with`. -/
def invertLoop : Nat → MultiLocation → List Junction → Except Unit (List Junction)
  | 0, _, acc => Except.ok acc
  | n + 1, anc, acc =>
    let step := take_first_interior anc
    match pushed_with acc (step.1.getD Junction.OnlyChild) with
    | Except.ok acc2 => invertLoop n step.2 acc2
    | Except.error e => Except.error e

/-- `LocationInverter::invert_location` (location_conversion.rs lines
185-195): run the loop `location.parent_count()` times over a working copy
of the configured ancestry, then return a location whose ascend-count is the
length of the input's interior and whose interior is the accumulated
output. -/
def invert_location (ancestry location : MultiLocation) : Except Unit MultiLocation :=
  match invertLoop location.parents ancestry []  with
  | Except.ok junctions => Except.ok ⟨location.interior.length, junctions⟩
  | Except.error e => Except.error e

/-- Modelled from the spec: the domain-separation tag of the child-system
account derivation — the 4-byte type identifier prepended to the encoded
sub-system id by `AccountIdConversion` (ASCII "para"; the trait
implementation lives outside src/). -/
def paraTag : List Nat := [112, 97, 114, 97]

/-- Little-endian byte decomposition: `toLE w v` is the `w` low-order bytes
of `v`. -/
def toLE : Nat → Nat → List Nat
  | 0, _ => []
  | w + 1, v => v % 256 :: toLE w (v / 256)

/-- Little-endian byte recomposition, inverse of `toLE`. -/
def fromLE : List Nat → Nat
  | [] => 0
  | b :: rest => b + 256 * fromLE rest

/-- Modelled from the spec: the deterministic, recoverable, domain-separated
derivation of a 32-byte account from a sub-system numeric id
(`AccountIdConversion::into_account`, outside src/): the tag, then the id as
four little-endian bytes, then zero padding to 32 bytes. -/
def ParaId.into_account (id : Nat) : List Nat :=
  paraTag ++ toLE 4 id ++ List.replicate 24 0

/-- Modelled from the spec: the inverse of the same derivation
(`AccountIdConversion::try_from_account`, outside src/): succeeds exactly on
accounts of the derivation's structure — tag prefix, the id bytes, all-zero
tail — and recovers the id. -/
def ParaId.try_from_account (a : List Nat) : Option Nat :=
  if a.length = 32 ∧ a.take 4 = paraTag ∧ a.drop 8 = List.replicate 24 0 then
    some (fromLE ((a.drop 4).take 4))
  else none

/-- `ChildParachainConvertsVia::convert_ref` (location_conversion.rs lines
65-71): a location of ascend-count 0 with a single Parachain junction maps
to the derived account; anything else fails. -/
def ChildParachainConvertsVia.convert (loc : MultiLocation) : Except Unit (List Nat) :=
  match loc with
  | ⟨0, [Junction.Parachain id]⟩ => Except.ok (ParaId.into_account id)
  | _ => Except.error ()

/-- `ChildParachainConvertsVia::reverse_ref` (location_conversion.rs lines
73-79): decode the account back to a sub-system id and wrap it as a
descend-only single-junction location. -/
def ChildParachainConvertsVia.reverse (who : List Nat) : Except Unit MultiLocation :=
  match ParaId.try_from_account who with
  | some id => Except.ok ⟨0, [Junction.Parachain id]⟩
  | none => Except.error ()

/-- `ParentIsDefault::convert_ref` (location_conversion.rs lines 44-50),
generic over the account type with default value `d`: a location that
contains exactly one parent and nothing else maps to the default account. -/
def ParentIsDefault.convert {α : Type} (d : α) (loc : MultiLocation) : Except Unit α :=
  if loc.parents = 1 ∧ loc.interior = [] then Except.ok d else Except.error ()

/-- `ParentIsDefault::reverse_ref` (location_conversion.rs lines 52-58): the
default account maps back to the pure-parent location. -/
def ParentIsDefault.reverse {α : Type} [DecidableEq α] (d : α) (who : α) :
    Except Unit MultiLocation :=
  if who = d then Except.ok ⟨1, []⟩ else Except.error ()

/-- `AccountId32Aliases::convert` (location_conversion.rs lines 108-120): a
descend-only single `AccountId32` junction whose network is the wildcard
(first match arm) or equals the configured network (guarded second arm) —
here folded into one disjunction — yields the raw 32 bytes; any other
location is returned as the error payload. -/
def AccountId32Aliases.convert (net : NetworkId) (loc : MultiLocation) :
    Except MultiLocation (List Nat) :=
  match loc with
  | ⟨0, [Junction.AccountId32 n id]⟩ =>
    if n = NetworkId.Any ∨ n = net then Except.ok id
    else Except.error ⟨0, [Junction.AccountId32 n id]⟩
  | _ => Except.error loc

/-- `AccountId32Aliases::reverse` (location_conversion.rs lines 122-124):
always succeeds, emitting a junction that carries the configured network. -/
def AccountId32Aliases.reverse (net : NetworkId) (who : List Nat) :
    Except (List Nat) MultiLocation :=
  Except.ok ⟨0, [Junction.AccountId32 net who]⟩

/-- `AccountKey20Aliases::convert` (location_conversion.rs lines 131-143):
as for the 32-byte alias scheme, with 20-byte account-key junctions. -/
def AccountKey20Aliases.convert (net : NetworkId) (loc : MultiLocation) :
    Except MultiLocation (List Nat) :=
  match loc with
  | ⟨0, [Junction.AccountKey20 n key]⟩ =>
    if n = NetworkId.Any ∨ n = net then Except.ok key
    else Except.error ⟨0, [Junction.AccountKey20 n key]⟩
  | _ => Except.error loc

/-- `AccountKey20Aliases::reverse` (location_conversion.rs lines 145-148):
always succeeds, emitting a junction that carries the configured network. -/
def AccountKey20Aliases.reverse (net : NetworkId) (who : List Nat) :
    Except (List Nat) MultiLocation :=
  Except.ok ⟨0, [Junction.AccountKey20 net who]⟩

/-- SCALE encoding of the string "multiloc" — the fixed domain-separation
tag hashed together with the encoded location by `Account32Hash`: the
compact length 8 (byte 32) followed by the ASCII bytes of "multiloc". -/
def multilocTag : List Nat := [32, 109, 117, 108, 116, 105, 108, 111, 99]

/-- `Account32Hash::convert_ref` (location_conversion.rs lines 29-31):
always succeeds, hashing the fixed tag concatenated with the encoded
location. The 256-bit hash (`blake2_256`) and the location codec are
external collaborators, taken as parameters. -/
def Account32Hash.convert (hash : List Nat → List Nat) (enc : MultiLocation → List Nat)
    (loc : MultiLocation) : Except Unit (List Nat) :=
  Except.ok (hash (multilocTag ++ enc loc))

/-- `Account32Hash::reverse_ref` (location_conversion.rs lines 33-35):
fails for every input — the scheme is one-way. -/
def Account32Hash.reverse (who : List Nat) : Except Unit MultiLocation :=
  Except.error ()

/-- Modelled from the spec: the reanchor loop (`MultiLocation::prepend_with`
via `MultiAsset::reanchor`, outside src/) on explicit components — asset
ascend-count and interior against inverted-location ascend-count and
interior: each asset ascend step consumes one junction from the front of the
inverted descend-sequence; a step with the sequence exhausted adds the
remaining excess to the inverted ascend-count; once the asset's ascends are
absorbed the result keeps the inverted ascend-count and prepends the
unmatched inverted junctions to the asset's own. -/
def reanchorAux : Nat → List Junction → Nat → List Junction → MultiLocation
  | 0, ai, ip, ii => ⟨ip, ii ++ ai⟩
  | n + 1, ai, ip, [] => ⟨ip + (n + 1), ai⟩
  | n + 1, ai, ip, _ :: rest => reanchorAux n ai ip rest

/-- Modelled from the spec: `reanchor` — re-express the asset-attached
location `asset` in the frame described by the inverted location `inv`. -/
def reanchor (asset inv : MultiLocation) : MultiLocation :=
  reanchorAux asset.parents asset.interior inv.parents inv.interior

lemma invertLoop_ok (n : Nat) (anc : MultiLocation) (acc : List Junction)
    (h : acc.length + n ≤ 8) :
    invertLoop n anc acc =
      Except.ok (acc ++ (anc.interior.take n ++
        List.replicate (n - anc.interior.length) Junction.OnlyChild)) := by
  induction n generalizing anc acc with
  | zero => simp [invertLoop]
  | succ n ih =>
    obtain ⟨ap, ai⟩ := anc
    have hlt : acc.length < 8 := by omega
    cases ai with
    | nil =>
      rw [invertLoop]
      simp only [take_first_interior, pushed_with, if_pos hlt, Option.getD_none, Option.getD_some]
      rw [ih ⟨ap, []⟩ (acc ++ [Junction.OnlyChild]) (by simp; omega)]
      simp [List.replicate_succ, List.append_assoc]
    | cons a rest =>
      rw [invertLoop]
      simp only [take_first_interior, pushed_with, if_pos hlt, Option.getD_none, Option.getD_some]
      rw [ih ⟨ap, rest⟩ (acc ++ [a]) (by simp; omega)]
      simp [List.append_assoc, Nat.succ_sub_succ]

lemma invertLoop_err (n : Nat) (anc : MultiLocation) (acc : List Junction)
    (hacc : acc.length ≤ 8) (h : 8 < acc.length + n) :
    invertLoop n anc acc = Except.error () := by
  induction n generalizing anc acc with
  | zero => omega
  | succ n ih =>
    obtain ⟨ap, ai⟩ := anc
    by_cases hlt : acc.length < 8
    · cases ai with
      | nil =>
        rw [invertLoop]
        simp only [take_first_interior, pushed_with, if_pos hlt, Option.getD_none, Option.getD_some]
        exact ih ⟨ap, []⟩ (acc ++ [Junction.OnlyChild]) (by simp; omega) (by simp; omega)
      | cons a rest =>
        rw [invertLoop]
        simp only [take_first_interior, pushed_with, if_pos hlt, Option.getD_none, Option.getD_some]
        exact ih ⟨ap, rest⟩ (acc ++ [a]) (by simp; omega) (by simp; omega)
    · rw [invertLoop]
      cases ai <;> simp [take_first_interior, pushed_with, if_neg hlt]

/-- Closed form of `invert_location`: for ascend-count at most 8 the result
is built from the front of the ancestry padded with OnlyChild, with the new
ascend-count equal to the input interior's length; beyond 8 it is the
Overflow error. -/
theorem invert_location_eq (ancestry loc : MultiLocation) :
    invert_location ancestry loc =
      if loc.parents ≤ 8 then
        Except.ok ⟨loc.interior.length,
          ancestry.interior.take loc.parents ++
            List.replicate (loc.parents - ancestry.interior.length) Junction.OnlyChild⟩
      else Except.error () := by
  by_cases h : loc.parents ≤ 8
  · rw [invert_location, invertLoop_ok loc.parents ancestry [] (by simpa using h)]
    simp [if_pos h]
  · rw [invert_location, invertLoop_err loc.parents ancestry [] (by simp) (by simpa using by omega)]
    simp [if_neg h]

lemma reanchorAux_eq (n : Nat) (ai : List Junction) (ip : Nat) (ii : List Junction) :
    reanchorAux n ai ip ii =
      if n ≤ ii.length then ⟨ip, ii.drop n ++ ai⟩ else ⟨ip + (n - ii.length), ai⟩ := by
  induction n generalizing ii with
  | zero => simp [reanchorAux]
  | succ n ih =>
    cases ii with
    | nil => simp [reanchorAux]
    | cons j rest =>
      rw [reanchorAux, ih]
      by_cases hn : n ≤ rest.length <;> simp [hn, Nat.succ_sub_succ]

/-- C1: for every location L = (parents, interior) and every configured
ancestry, invert_location returns a location whose descend-sequence is the
first `parents` junctions taken in order from the front of the ancestry,
with OnlyChild substituted for each position where the ancestry is
exhausted, and whose ascend-count equals the number of junctions in L's
interior; it fails (with the Overflow error) exactly when the output
sequence — which holds `parents` junctions — would exceed 8 junctions. -/
theorem invert_location_take_and_pad (ancestry loc : MultiLocation) :
    invert_location ancestry loc =
      if loc.parents ≤ 8 then
        Except.ok ⟨loc.interior.length,
          ancestry.interior.take loc.parents ++
            List.replicate (loc.parents - ancestry.interior.length) Junction.OnlyChild⟩
      else Except.error () :=
  invert_location_eq ancestry loc

/-- C2: for every input location whose ascend-count makes the inverted
output sequence exceed 8 junctions, invert_location returns the Overflow
failure rather than truncating, for every ancestry whatsoever — the failure
does not depend on whether the ancestry was exhausted. -/
theorem invert_location_overflow (ancestry loc : MultiLocation) (h : 8 < loc.parents) :
    invert_location ancestry loc = Except.error () := by
  rw [invert_location_eq, if_neg (by omega)]

/-- Witness for C2: ascend-count 99 against the empty ancestry (the case of
the source test `inverter_errors_when_location_is_too_large`). -/
theorem invert_location_overflow_witness :
    invert_location ⟨0, []⟩ ⟨99, [Junction.Parachain 88]⟩ = Except.error () :=
  invert_location_overflow ⟨0, []⟩ ⟨99, [Junction.Parachain 88]⟩ (by decide)

/-- C8: with ancestry [Parachain 1000, PalletInstance 42], invert_location
maps (ascend-count 1, empty interior) to (0, [Parachain 1000]) and
(ascend-count 3, empty interior) to
(0, [Parachain 1000, PalletInstance 42, OnlyChild]) — OnlyChild padding. -/
theorem invert_location_para_pallet_cases :
    invert_location ⟨0, [Junction.Parachain 1000, Junction.PalletInstance 42]⟩ ⟨1, []⟩ =
      Except.ok ⟨0, [Junction.Parachain 1000]⟩ ∧
    invert_location ⟨0, [Junction.Parachain 1000, Junction.PalletInstance 42]⟩ ⟨3, []⟩ =
      Except.ok ⟨0, [Junction.Parachain 1000, Junction.PalletInstance 42, Junction.OnlyChild]⟩ :=
  ⟨rfl, rfl⟩

/-- C9: when the input's ascend-count is at most 8 (and the configured
ancestry holds at most 8 junctions), invert_location never fails: the
Overflow branch is unreachable, and the output interior receives exactly
ascend-count junctions while the output ascend-count is the input interior's
length. -/
theorem invert_location_no_overflow (ancestry loc : MultiLocation)
    (h1 : loc.parents ≤ 8) (h2 : ancestry.interior.length ≤ 8) :
    ∃ out, invert_location ancestry loc = Except.ok out ∧
      out.interior.length = loc.parents ∧ out.parents = loc.interior.length := by
  refine ⟨⟨loc.interior.length,
    ancestry.interior.take loc.parents ++
      List.replicate (loc.parents - ancestry.interior.length) Junction.OnlyChild⟩, ?_, ?_, rfl⟩
  · rw [invert_location_eq, if_pos h1]
  · simp only [List.length_append, List.length_take, List.length_replicate]
    omega

/-- Witness for C9 at a concrete ancestry and location. -/
theorem invert_location_no_overflow_witness :
    ∃ out, invert_location ⟨0, [Junction.Parachain 1000]⟩ ⟨2, [Junction.GeneralIndex 5]⟩ =
        Except.ok out ∧ out.interior.length = 2 ∧ out.parents = 1 :=
  invert_location_no_overflow ⟨0, [Junction.Parachain 1000]⟩ ⟨2, [Junction.GeneralIndex 5]⟩
    (by decide) (by decide)

/-- C10: invert_location depends on the input location only through its
ascend-count and the length of its interior — the junction values of the
input's interior are never inspected. -/
theorem invert_location_interior_oblivious (ancestry l1 l2 : MultiLocation)
    (hp : l1.parents = l2.parents) (hi : l1.interior.length = l2.interior.length) :
    invert_location ancestry l1 = invert_location ancestry l2 := by
  rw [invert_location_eq, invert_location_eq, hp, hi]

/-- Witness for C10: two inputs with the same shape but different interior
junctions invert identically. -/
theorem invert_location_interior_oblivious_witness :
    invert_location ⟨0, [Junction.Parachain 1000]⟩ ⟨1, [Junction.Parachain 7]⟩ =
      invert_location ⟨0, [Junction.Parachain 1000]⟩ ⟨1, [Junction.GeneralIndex 9]⟩ :=
  invert_location_interior_oblivious ⟨0, [Junction.Parachain 1000]⟩
    ⟨1, [Junction.Parachain 7]⟩ ⟨1, [Junction.GeneralIndex 9]⟩ rfl rfl

/-- C3: reanchoring an asset-attached location against an inverted location
consumes the common prefix of the asset's ascend-count against the inverted
location's descend-sequence from the front: if the ascend-count is fully
absorbed, the result is the inverted location's ascend-count with its
unmatched descend-sequence followed by the asset's own descend-sequence; if
the ascend-count exceeds the inverted descend-sequence's length, the excess
is added to the inverted ascend-count and the inverted descend-sequence is
discarded. -/
theorem reanchor_spec (asset inv : MultiLocation) :
    (asset.parents ≤ inv.interior.length →
      reanchor asset inv = ⟨inv.parents, inv.interior.drop asset.parents ++ asset.interior⟩) ∧
    (inv.interior.length < asset.parents →
      reanchor asset inv =
        ⟨inv.parents + (asset.parents - inv.interior.length), asset.interior⟩) := by
  constructor <;> intro h <;> rw [reanchor, reanchorAux_eq]
  · rw [if_pos h]
  · rw [if_neg (by omega)]

/-- Witness for C3: the sibling case of the source test
`test_parachain_reanchor_sibling` — the asset (ascend 1, empty interior)
reanchored against (1, [Parachain 1]) stays (1, empty): the single ascend is
absorbed by the single descend junction. -/
theorem reanchor_spec_witness :
    reanchor ⟨1, []⟩ ⟨1, [Junction.Parachain 1]⟩ = ⟨1, []⟩ :=
  (reanchor_spec ⟨1, []⟩ ⟨1, [Junction.Parachain 1]⟩).1 (by decide)

/-- The reanchor model reproduces the assertions of the source tests
`test_parachain_reanchor_sibling` and `test_sibling_reanchor` (the inverted
destination there is (1, [Parachain 1]) resp. (1, [Parachain 2001])). -/
theorem reanchor_matches_source_tests :
    reanchor ⟨0, []⟩ ⟨1, [Junction.Parachain 1]⟩ = ⟨1, [Junction.Parachain 1]⟩ ∧
    reanchor ⟨1, []⟩ ⟨1, [Junction.Parachain 1]⟩ = ⟨1, []⟩ ∧
    reanchor ⟨0, [Junction.Parachain 1]⟩ ⟨1, [Junction.Parachain 1]⟩ =
      ⟨1, [Junction.Parachain 1, Junction.Parachain 1]⟩ ∧
    reanchor ⟨0, [Junction.GeneralIndex 42]⟩ ⟨1, [Junction.Parachain 1]⟩ =
      ⟨1, [Junction.Parachain 1, Junction.GeneralIndex 42]⟩ ∧
    reanchor ⟨0, [Junction.GeneralIndex 42]⟩ ⟨1, [Junction.Parachain 2001]⟩ =
      ⟨1, [Junction.Parachain 2001, Junction.GeneralIndex 42]⟩ ∧
    reanchor ⟨1, [Junction.Parachain 2000, Junction.GeneralIndex 42]⟩
        ⟨1, [Junction.Parachain 2001]⟩ =
      ⟨1, [Junction.Parachain 2000, Junction.GeneralIndex 42]⟩ :=
  ⟨rfl, rfl, rfl, rfl, rfl, rfl⟩

/-- C4: for every 32-bit sub-system id P, the child-system-via-index
scheme's forward conversion of (0, [Parachain P]) succeeds with the derived
account, and the backward conversion of that account reproduces the
original location exactly. -/
theorem child_parachain_roundtrip (P : Nat) (h : P < 2 ^ 32) :
    ChildParachainConvertsVia.convert ⟨0, [Junction.Parachain P]⟩ =
      Except.ok (ParaId.into_account P) ∧
    ChildParachainConvertsVia.reverse (ParaId.into_account P) =
      Except.ok ⟨0, [Junction.Parachain P]⟩ := by
  refine ⟨rfl, ?_⟩
  simp only [ChildParachainConvertsVia.reverse, ParaId.into_account, ParaId.try_from_account,
    paraTag, toLE, fromLE]
  norm_num
  omega

/-- Witness for C4 at the concrete sub-system id 2000. -/
theorem child_parachain_roundtrip_witness :
    ChildParachainConvertsVia.convert ⟨0, [Junction.Parachain 2000]⟩ =
      Except.ok (ParaId.into_account 2000) ∧
    ChildParachainConvertsVia.reverse (ParaId.into_account 2000) =
      Except.ok ⟨0, [Junction.Parachain 2000]⟩ :=
  child_parachain_roundtrip 2000 (by norm_num)

lemma accountId32_convert_ok_shape (net : NetworkId) (loc : MultiLocation) (id : List Nat)
    (h : AccountId32Aliases.convert net loc = Except.ok id) :
    ∃ n, loc = ⟨0, [Junction.AccountId32 n id]⟩ ∧ (n = NetworkId.Any ∨ n = net) := by
  unfold AccountId32Aliases.convert at h
  split at h
  · split at h
    · cases h
      exact ⟨_, rfl, by assumption⟩
    · cases h
  · cases h

lemma accountKey20_convert_ok_shape (net : NetworkId) (loc : MultiLocation) (key : List Nat)
    (h : AccountKey20Aliases.convert net loc = Except.ok key) :
    ∃ n, loc = ⟨0, [Junction.AccountKey20 n key]⟩ ∧ (n = NetworkId.Any ∨ n = net) := by
  unfold AccountKey20Aliases.convert at h
  split at h
  · split at h
    · cases h
      exact ⟨_, rfl, by assumption⟩
    · cases h
  · cases h

/-- C5: for the 32-byte and 20-byte account alias schemes with a configured
network (the configured value being a specific network, not the wildcard),
the forward direction succeeds exactly on a location with ascend-count 0 and
a single account junction whose network is the wildcard or equals the
configured network, returning the raw bytes; for every account identifier
the backward direction emits a junction carrying the configured network,
never the wildcard. -/
theorem account_alias_schemes_spec (net : NetworkId) (hnet : net ≠ NetworkId.Any) :
    (∀ n id, (n = NetworkId.Any ∨ n = net) →
      AccountId32Aliases.convert net ⟨0, [Junction.AccountId32 n id]⟩ = Except.ok id) ∧
    (∀ loc id, AccountId32Aliases.convert net loc = Except.ok id →
      ∃ n, loc = ⟨0, [Junction.AccountId32 n id]⟩ ∧ (n = NetworkId.Any ∨ n = net)) ∧
    (∀ who, AccountId32Aliases.reverse net who =
        Except.ok ⟨0, [Junction.AccountId32 net who]⟩ ∧ net ≠ NetworkId.Any) ∧
    (∀ n key, (n = NetworkId.Any ∨ n = net) →
      AccountKey20Aliases.convert net ⟨0, [Junction.AccountKey20 n key]⟩ = Except.ok key) ∧
    (∀ loc key, AccountKey20Aliases.convert net loc = Except.ok key →
      ∃ n, loc = ⟨0, [Junction.AccountKey20 n key]⟩ ∧ (n = NetworkId.Any ∨ n = net)) ∧
    (∀ who, AccountKey20Aliases.reverse net who =
        Except.ok ⟨0, [Junction.AccountKey20 net who]⟩ ∧ net ≠ NetworkId.Any) := by
  refine ⟨fun n id hn => ?_, accountId32_convert_ok_shape net, fun who => ⟨rfl, hnet⟩,
    fun n key hn => ?_, accountKey20_convert_ok_shape net, fun who => ⟨rfl, hnet⟩⟩
  · simp only [AccountId32Aliases.convert]
    rw [if_pos hn]
  · simp only [AccountKey20Aliases.convert]
    rw [if_pos hn]

/-- Witness for C5: with configured network Polkadot, the wildcard-tagged
32-byte account junction converts forward to its raw bytes. -/
theorem account_alias_schemes_spec_witness :
    AccountId32Aliases.convert NetworkId.Polkadot
        ⟨0, [Junction.AccountId32 NetworkId.Any (List.replicate 32 7)]⟩ =
      Except.ok (List.replicate 32 7) :=
  (account_alias_schemes_spec NetworkId.Polkadot (by decide)).1
    NetworkId.Any (List.replicate 32 7) (Or.inl rfl)

/-- C6: under the ascend-only default scheme (over any account type with a
decidable equality and default value d), the location (1, empty) converts
forward to the default account, the default account converts backward to
(1, empty), and every other location or account fails. -/
theorem parent_is_default_spec {α : Type} [DecidableEq α] (d : α) :
    ParentIsDefault.convert d ⟨1, []⟩ = Except.ok d ∧
    ParentIsDefault.reverse d d = Except.ok ⟨1, []⟩ ∧
    (∀ loc : MultiLocation, loc ≠ ⟨1, []⟩ → ParentIsDefault.convert d loc = Except.error ()) ∧
    (∀ who : α, who ≠ d → ParentIsDefault.reverse d who = Except.error ()) := by
  refine ⟨?_, ?_, fun loc hloc => ?_, fun who hwho => ?_⟩
  · rw [ParentIsDefault.convert, if_pos ⟨rfl, rfl⟩]
  · rw [ParentIsDefault.reverse, if_pos rfl]
  · rw [ParentIsDefault.convert, if_neg]
    rintro ⟨h1, h2⟩
    obtain ⟨p, i⟩ := loc
    simp only at h1 h2
    subst h1 h2
    exact hloc rfl
  · rw [ParentIsDefault.reverse, if_neg hwho]

/-- Witness for C6 over 32-byte accounts: a non-default location and a
non-default account both fail the scheme. -/
theorem parent_is_default_spec_witness :
    ParentIsDefault.convert (List.replicate 32 0) ⟨2, []⟩ = Except.error () ∧
    ParentIsDefault.reverse (List.replicate 32 0) (List.replicate 32 1) = Except.error () :=
  ⟨(parent_is_default_spec (List.replicate 32 0)).2.2.1 ⟨2, []⟩ (by decide),
   (parent_is_default_spec (List.replicate 32 0)).2.2.2 (List.replicate 32 1) (by decide)⟩

/-- C7: the hash-derived scheme's forward direction succeeds for every
location (and every choice of the external 256-bit hash and location codec),
producing the hash of the fixed domain-separation tag concatenated with the
encoded location, while its backward direction fails for every account
identifier — the scheme is one-way. -/
theorem account32_hash_spec :
    (∀ (hash : List Nat → List Nat) (enc : MultiLocation → List Nat) (loc : MultiLocation),
      Account32Hash.convert hash enc loc = Except.ok (hash (multilocTag ++ enc loc))) ∧
    (∀ who : List Nat, Account32Hash.reverse who = Except.error ()) :=
  ⟨fun _ _ _ => rfl, fun _ => rfl⟩
